import Mathlib

/-!
Shallow embedding of the Arabic/RTL worksheet generator
(`worksheet_generator.py`): the text-direction detector, the smart RTL
paragraph applier, the choice-grid layout and the multiple-choice
question constructor, together with theorems checking the specification's
claims about them.

Strings are modelled as `List Char`; each Python run/paragraph becomes a
record carrying exactly the state the embedded operations read or write.
Python's float ratio comparisons (`arabic_count / total > 0.6`,
`< 0.2`) are modelled by the exact rational comparisons
`5 * arabic > 3 * total` and `5 * arabic < total`; for every string
shorter than 10^15 characters the double rounding cannot cross these
boundaries, and at the boundaries themselves (ratio exactly 3/5 or 1/5)
the float and rational comparisons agree exactly.
-/

namespace Worksheet

/-! ### Unicode directional controls and punctuation (module-level constants) -/

def LRM : Char := Char.ofNat 0x200E
def RLM : Char := Char.ofNat 0x200F
def LRI : Char := Char.ofNat 0x2066
def RLI : Char := Char.ofNat 0x2067
def PDI : Char := Char.ofNat 0x2069

def arabicComma : Char := Char.ofNat 0x060C
def arabicQuestionMark : Char := Char.ofNat 0x061F
def arabicSemicolon : Char := Char.ofNat 0x061B

/-- ARABIC_PUNCT_MAP applied characterwise: the three sequential
`str.replace` calls substitute the single characters `,` `?` `;` by
Arabic punctuation; since no produced character is a later key, the
sequential replaces equal one characterwise map. -/
def arabicPunctSubst (c : Char) : Char :=
  if c = ',' then arabicComma
  else if c = '?' then arabicQuestionMark
  else if c = ';' then arabicSemicolon
  else c

/-! ### Character classification (`detect_text_direction` loop) -/

/-- Character counted in `arabic_count` by `detect_text_direction`:
`(0x0590 <= o <= 0x08FF) or (0xFB1D <= o <= 0xFEFC)`. -/
def isArabicClass (c : Char) : Bool :=
  (0x0590 ≤ c.toNat && c.toNat ≤ 0x08FF) || (0xFB1D ≤ c.toNat && c.toNat ≤ 0xFEFC)

/-- Character counted in `latin_count` by `detect_text_direction`:
`(0x0041 <= o <= 0x007A) or (0x0030 <= o <= 0x0039)`. -/
def isLatinClass (c : Char) : Bool :=
  (0x0041 ≤ c.toNat && c.toNat ≤ 0x007A) || (0x0030 ≤ c.toNat && c.toNat ≤ 0x0039)

/-- ASCII letter or ASCII digit (codepoints 0x41-0x5A, 0x61-0x7A,
0x30-0x39), as the spec's words describe the Latin class; used to
compare the spec's description with the code's actual ranges. -/
def isAsciiAlnum (c : Char) : Bool :=
  (0x41 ≤ c.toNat && c.toNat ≤ 0x5A) || (0x61 ≤ c.toNat && c.toNat ≤ 0x7A) ||
  (0x30 ≤ c.toNat && c.toNat ≤ 0x39)

def countArabic (t : List Char) : Nat := (t.filter isArabicClass).length

def countLatin (t : List Char) : Nat := (t.filter isLatinClass).length

/-! ### Direction detection -/

inductive Direction
  | rtl
  | ltr
  | mixed
  | neutral
deriving DecidableEq, Repr

/-- ArabicTextFormatter.detect_text_direction. The float comparisons
`ratio > 0.6` / `ratio < 0.2` are modelled exactly as rationals. -/
def detect_text_direction (t : List Char) : Direction :=
  if t.isEmpty then .neutral
  else
    let a := countArabic t
    let l := countLatin t
    if a + l = 0 then .neutral
    else if 5 * a > 3 * (a + l) then .rtl
    else if 5 * a < a + l then .ltr
    else .mixed

/-- Python truthiness at entry: `if not text` also sends `None` to
`"neutral"`, i.e. a missing string is treated as the empty string. -/
def detect_text_direction_opt (t : Option (List Char)) : Direction :=
  detect_text_direction (t.getD [])

/-! ### Run-level helper predicates (`contains_arabic`, `contains_strong_latin`) -/

/-- Character class of the regex in `contains_arabic`:
`[֐-ࣿיִ-﷿ﹰ-﻿]`. -/
def isArabicRegexChar (c : Char) : Bool :=
  (0x0590 ≤ c.toNat && c.toNat ≤ 0x08FF) ||
  (0xFB1D ≤ c.toNat && c.toNat ≤ 0xFDFF) ||
  (0xFE70 ≤ c.toNat && c.toNat ≤ 0xFEFF)

def contains_arabic (t : List Char) : Bool := t.any isArabicRegexChar

/-- Character class of the regex in `contains_strong_latin`:
`[A-Za-z0-9]` (codepoints 0x41-0x5A, 0x61-0x7A, 0x30-0x39). -/
def isStrongLatinChar (c : Char) : Bool :=
  (0x41 ≤ c.toNat && c.toNat ≤ 0x5A) || (0x61 ≤ c.toNat && c.toNat ≤ 0x7A) ||
  (0x30 ≤ c.toNat && c.toNat ≤ 0x39)

def contains_strong_latin (t : List Char) : Bool := t.any isStrongLatinChar

/-! ### Run and paragraph state

A `Run` carries its text, whether its XML holds an OMML math element
(`run_contains_omml`), whether an `rPr` container exists, how many
`w:rtl` elements have been appended to it, and a flag saying whether
appending to `rPr` raises in the underlying library (the failure the
`try`/`except` around `set_run_rtl` guards against). A `Paragraph`
carries its runs and the paragraph-property state `format_paragraph_rtl`
touches: the number of `w:bidi` children, the number of `w:bidiVisual`
children, spacing, and alignment. -/

inductive WDAlign
  | left
  | right
  | center
  | justify
deriving DecidableEq, Repr

structure Run where
  text : List Char
  hasOmml : Bool
  hasRPr : Bool
  rtlCount : Nat
  appendFails : Bool
deriving DecidableEq, Repr

structure Paragraph where
  runs : List Run
  bidiCount : Nat
  bidiVisualCount : Nat
  spaceBefore : Option Nat
  spaceAfter : Option Nat
  alignment : Option WDAlign
deriving DecidableEq, Repr

/-- set_run_rtl: `get_or_add_rPr` (or, on AttributeError, an explicitly
appended `rPr`) guarantees the container exists; then a fresh `w:rtl`
element is appended. The second component records whether the append
succeeded; `false` models an exception escaping `set_run_rtl` after the
container was created. -/
def set_run_rtl (r : Run) (onVal : Bool) : Run × Bool :=
  let r1 : Run := { r with hasRPr := true }
  if r1.appendFails then (r1, false)
  else ({ r1 with rtlCount := r1.rtlCount + 1 }, true)

/-- The callers' `try: set_run_rtl(run, on=True) except Exception: pass`:
the state reached before the exception is kept, the exception is dropped,
and processing continues. -/
def trySetRunRtl (r : Run) : Run := (set_run_rtl r true).1

/-- format_paragraph_rtl: appends a fresh `w:bidi` to `pPr`, zeroes the
spacing, and (unless `preserve_alignment`) forces LEFT alignment. -/
def format_paragraph_rtl (p : Paragraph) (preserve_alignment : Bool) : Paragraph :=
  let p1 : Paragraph :=
    { p with bidiCount := p.bidiCount + 1, spaceAfter := some 0, spaceBefore := some 0 }
  if preserve_alignment then p1 else { p1 with alignment := some WDAlign.left }

/-! ### The smart RTL applier (`apply_smart_rtl_to_paragraph`) -/

/-- Punctuation substitution of the `rtl` branch: guarded only by
`contains_arabic(run.text)`. -/
def rtlSubstText (t : List Char) : List Char :=
  if contains_arabic t then t.map arabicPunctSubst else t

/-- Punctuation substitution of the `mixed` branch: guarded by
`contains_arabic(text_run) and not contains_strong_latin(text_run)`. -/
def mixedSubstText (t : List Char) : List Char :=
  if contains_arabic t && !contains_strong_latin t then t.map arabicPunctSubst else t

/-- Isolate wrapping shared by the `rtl` and `mixed` branches:
`LRI + text + PDI`, and for OMML runs a trailing RLM after the PDI. -/
def wrapLatinOrMath (t : List Char) (omml : Bool) : List Char :=
  if contains_strong_latin t || omml then
    (LRI :: t ++ [PDI]) ++ (if omml then [RLM] else [])
  else t

/-- Per-run body of the `rtl` branch loop: substitute punctuation on
`run.text`, wrap strong-Latin/math runs in LRI…PDI (+ RLM for math), and
attempt run-level RTL when the (current) text is Arabic without strong
Latin. -/
def rtlRunStep (r : Run) : Run :=
  let r1 : Run := { r with text := rtlSubstText r.text }
  let r2 : Run := { r1 with text := wrapLatinOrMath r1.text r1.hasOmml }
  if contains_arabic r2.text && !contains_strong_latin r2.text then trySetRunRtl r2 else r2

/-- Per-run body of the `mixed` branch loop: the substituted/wrapped text
is computed in a local `text_run`, run-level RTL is attempted on the
final text, and `run.text` is assigned at the end. -/
def mixedRunStep (r : Run) : Run :=
  let t1 := mixedSubstText r.text
  let t2 := wrapLatinOrMath t1 r.hasOmml
  let r1 : Run := if contains_arabic t2 && !contains_strong_latin t2 then trySetRunRtl r else r
  { r1 with text := t2 }

/-- Per-run body of the `ltr` branch loop: purely-Arabic runs are wrapped
in RLI…PDI and get run-level RTL; every other run is untouched. -/
def ltrRunStep (r : Run) : Run :=
  if contains_arabic r.text && !contains_strong_latin r.text then
    trySetRunRtl { r with text := RLI :: r.text ++ [PDI] }
  else r

/-- The four branches of `apply_smart_rtl_to_paragraph` after the
direction verdict is computed. -/
def applyDirection (d : Direction) (p : Paragraph) (preserve_alignment : Bool) : Paragraph :=
  match d with
  | .rtl =>
      let p1 := format_paragraph_rtl p preserve_alignment
      { p1 with runs := p1.runs.map rtlRunStep }
  | .mixed =>
      let p1 := format_paragraph_rtl p preserve_alignment
      let p2 : Paragraph := { p1 with runs := p1.runs.map mixedRunStep }
      { p2 with bidiVisualCount := p2.bidiVisualCount + 1 }
  | .ltr =>
      let p1 : Paragraph := { p with spaceAfter := some 0, spaceBefore := some 0 }
      let p2 : Paragraph :=
        if preserve_alignment then p1 else { p1 with alignment := some WDAlign.left }
      { p2 with runs := p2.runs.map ltrRunStep }
  | .neutral => { p with spaceAfter := some 0, spaceBefore := some 0 }

/-- ArabicTextFormatter.apply_smart_rtl_to_paragraph: when `text` is
`None` the paragraph text is the concatenation of the run texts; the
branch taken depends only on the detected direction. -/
def apply_smart_rtl_to_paragraph (p : Paragraph) (text : Option (List Char))
    (preserve_alignment : Bool) : Paragraph :=
  applyDirection
    (detect_text_direction (text.getD ((p.runs.map Run.text).flatten)))
    p preserve_alignment

/-! ### Choice grid (`MultipleChoiceRenderer._render_choices_grid`) -/

/-- The `cell_positions` list: a hard-wired right-to-left order for the
2x2 grid, and otherwise row-major order with each row's columns visited
from `cols-1` down to `0`. -/
def cell_positions (rows cols : Nat) : List (Nat × Nat) :=
  if rows = 2 && cols = 2 then
    [(0, 1), (0, 0), (1, 1), (1, 0)]
  else
    (List.range rows).flatMap (fun r => ((List.range cols).reverse).map (fun c => (r, c)))

/-- `zip(cell_positions, question.choices)`: choice `i` is rendered into
the cell at `cell_positions[i]`. -/
def choicePlacement (rows cols : Nat) (choices : List (List Char)) :
    List ((Nat × Nat) × List Char) :=
  (cell_positions rows cols).zip choices

/-! ### MultipleChoiceQuestion construction -/

structure MultipleChoiceQuestion where
  question : List Char
  number : Option Int
  choices : List (List Char)
  answer_key : Option Int
deriving DecidableEq, Repr

/-- The dataclass constructor with its `__post_init__` validation: the
choices-length check is commented out in the source; only
`answer_key is not None and not (0 <= answer_key < 4)` raises. -/
def mkMultipleChoiceQuestion (question : List Char) (number : Option Int)
    (choices : List (List Char)) (answer_key : Option Int) :
    Except (List Char) MultipleChoiceQuestion :=
  match answer_key with
  | some k =>
      if 0 ≤ k && k < 4 then
        .ok { question := question, number := number, choices := choices,
              answer_key := some k }
      else
        .error ("Answer key must be between 0 and 3".toList)
  | none =>
      .ok { question := question, number := number, choices := choices,
            answer_key := none }

/-! ### Derived notions used by the theorems -/

/-- Number of occurrences of the character `m` in `t`. -/
def countChar (m : Char) (t : List Char) : Nat := (t.filter (fun c => c == m)).length

/-- Isolate markers are balanced: opening isolates (LRI and RLI) are as
many as pop markers (PDI). -/
def markerBalancedB (t : List Char) : Bool :=
  countChar LRI t + countChar RLI t == countChar PDI t

/-- No ASCII comma, question mark or semicolon occurs in the text. -/
def noAsciiPunct (t : List Char) : Bool :=
  t.all (fun c => !(c == ',' || c == '?' || c == ';'))

/-- Pure text transformation performed on a run by the branch for
direction `d`: a function of the run's text and its OMML flag only,
independent of the run-property state and of any property-assignment
failure. -/
def runTextTransform (d : Direction) (t : List Char) (omml : Bool) : List Char :=
  match d with
  | .rtl => wrapLatinOrMath (rtlSubstText t) omml
  | .mixed => wrapLatinOrMath (mixedSubstText t) omml
  | .ltr => if contains_arabic t && !contains_strong_latin t then RLI :: t ++ [PDI] else t
  | .neutral => t

/-- n-fold application of `apply_smart_rtl_to_paragraph` with the same
`text` argument and `preserve_alignment` flag. -/
def applyIter (t : Option (List Char)) (pa : Bool) : Nat → Paragraph → Paragraph
  | 0, p => p
  | n + 1, p => applyIter t pa n (apply_smart_rtl_to_paragraph p t pa)

/-! ## Theorems -/

/-- When both character counts vanish, the verdict is `neutral`. -/
theorem detect_neutral_of_counts (t : List Char) (h1 : countArabic t = 0)
    (h2 : countLatin t = 0) : detect_text_direction t = Direction.neutral := by
  cases t with
  | nil => rfl
  | cons c cs => simp [detect_text_direction, h1, h2]

/-- Characterisation of the three non-neutral verdicts by the exact
rational threshold comparisons. -/
theorem detect_characterisation (t : List Char)
    (h : countArabic t + countLatin t ≠ 0) :
    (detect_text_direction t = Direction.rtl ↔
      5 * countArabic t > 3 * (countArabic t + countLatin t)) ∧
    (detect_text_direction t = Direction.ltr ↔
      5 * countArabic t < countArabic t + countLatin t) ∧
    (detect_text_direction t = Direction.mixed ↔
      (¬ 5 * countArabic t > 3 * (countArabic t + countLatin t) ∧
       ¬ 5 * countArabic t < countArabic t + countLatin t)) := by
  have hne : t.isEmpty = false := by
    cases t with
    | nil => simp [countArabic, countLatin] at h
    | cons c cs => rfl
  simp only [detect_text_direction, hne, Bool.false_eq_true, if_false, if_neg h]
  split_ifs with h1 h2 <;> simp <;> omega

/-- C2: `detect_text_direction` returns `neutral` for `None`, for the
empty string and whenever both class counts are zero; otherwise it
returns `rtl` exactly when the Arabic ratio exceeds 0.6, `ltr` exactly
when it is below 0.2, and `mixed` otherwise; in particular a string of
1 Arabic and 4 Latin characters (ratio exactly 0.2) and one of 3 Arabic
and 2 Latin characters (ratio exactly 0.6) are both `mixed`. -/
theorem C2_detect_direction_thresholds :
    detect_text_direction_opt none = Direction.neutral ∧
    detect_text_direction [] = Direction.neutral ∧
    (∀ t : List Char, countArabic t = 0 → countLatin t = 0 →
      detect_text_direction t = Direction.neutral) ∧
    (∀ t : List Char, countArabic t + countLatin t ≠ 0 →
      ((detect_text_direction t = Direction.rtl ↔
        5 * countArabic t > 3 * (countArabic t + countLatin t)) ∧
       (detect_text_direction t = Direction.ltr ↔
        5 * countArabic t < countArabic t + countLatin t) ∧
       (detect_text_direction t = Direction.mixed ↔
        (¬ 5 * countArabic t > 3 * (countArabic t + countLatin t) ∧
         ¬ 5 * countArabic t < countArabic t + countLatin t)))) ∧
    detect_text_direction (Char.ofNat 0x627 :: ['a', 'a', 'a', 'a']) = Direction.mixed ∧
    detect_text_direction
      (Char.ofNat 0x627 :: Char.ofNat 0x627 :: Char.ofNat 0x627 :: ['a', 'a']) =
      Direction.mixed :=
  ⟨by decide, by decide, detect_neutral_of_counts,
   fun t h => detect_characterisation t h, by decide, by decide⟩

/-- Closed instance of C2's conditional parts: a string with neither
class is neutral, and a purely Latin one-character string is `ltr`. -/
theorem C2_witness :
    detect_text_direction [' '] = Direction.neutral ∧
    (detect_text_direction ['a'] = Direction.ltr ↔
      5 * countArabic ['a'] < countArabic ['a'] + countLatin ['a']) :=
  ⟨C2_detect_direction_thresholds.2.2.1 [' '] (by decide) (by decide),
   (C2_detect_direction_thresholds.2.2.2.1 ['a'] (by decide)).2.1⟩

/-- C3 fails on the code: `[` (U+005B) is neither an ASCII letter nor an
ASCII digit, but the detector's range `0x0041 <= o <= 0x007A` counts it
as Latin-class, so the string "[" yields verdict `ltr`, not `neutral`. -/
theorem C3_counterexample :
    isLatinClass (Char.ofNat 0x5B) = true ∧
    isAsciiAlnum (Char.ofNat 0x5B) = false ∧
    isArabicClass (Char.ofNat 0x5B) = false ∧
    detect_text_direction [Char.ofNat 0x5B] = Direction.ltr := by decide

/-- C3 amended: the Latin class is the ASCII letters and digits plus the
six punctuation characters U+005B..U+0060; the Arabic class is exactly
the ranges 0x0590-0x08FF and 0xFB1D-0xFEFC; and every string all of
whose characters fall in neither class yields `neutral` without error. -/
theorem C3_amended_character_classes :
    (∀ c : Char, isLatinClass c =
      (isAsciiAlnum c || (0x5B ≤ c.toNat && c.toNat ≤ 0x60))) ∧
    (∀ c : Char, isArabicClass c =
      ((0x0590 ≤ c.toNat && c.toNat ≤ 0x08FF) ||
       (0xFB1D ≤ c.toNat && c.toNat ≤ 0xFEFC))) ∧
    (∀ t : List Char, (∀ c ∈ t, isArabicClass c = false ∧ isLatinClass c = false) →
      detect_text_direction t = Direction.neutral) := by
  refine ⟨?_, fun c => rfl, ?_⟩
  · intro c
    rw [Bool.eq_iff_iff]
    simp only [isLatinClass, isAsciiAlnum, Bool.or_eq_true, Bool.and_eq_true,
      decide_eq_true_eq]
    omega
  · intro t ht
    have ha : countArabic t = 0 := by
      simp only [countArabic, List.length_eq_zero]
      rw [List.filter_eq_nil_iff]
      intro c hc
      simp [(ht c hc).1]
    have hl : countLatin t = 0 := by
      simp only [countLatin, List.length_eq_zero]
      rw [List.filter_eq_nil_iff]
      intro c hc
      simp [(ht c hc).2]
    exact detect_neutral_of_counts t ha hl

/-- Closed instance of C3's amended neutral statement on a string of
spaces and Greek letters (neither class). -/
theorem C3_witness :
    detect_text_direction [' ', Char.ofNat 0x3B1, ' '] = Direction.neutral :=
  C3_amended_character_classes.2.2 [' ', Char.ofNat 0x3B1, ' '] (by decide)

/-- C10: constructing a MultipleChoiceQuestion raises exactly when the
answer key is present and outside `0 <= k < 4`; the choices list is not
validated (any length, including empty, is accepted) and the bound 4 is
fixed, independent of the number of choices. -/
theorem C10_answer_key_validation :
    (∀ (q : List Char) (n : Option Int) (cs : List (List Char)) (k : Int),
      0 ≤ k → k < 4 →
      mkMultipleChoiceQuestion q n cs (some k) =
        Except.ok { question := q, number := n, choices := cs, answer_key := some k }) ∧
    (∀ (q : List Char) (n : Option Int) (cs : List (List Char)) (k : Int),
      ¬(0 ≤ k ∧ k < 4) →
      mkMultipleChoiceQuestion q n cs (some k) =
        Except.error ("Answer key must be between 0 and 3".toList)) ∧
    (∀ (q : List Char) (n : Option Int) (cs : List (List Char)),
      mkMultipleChoiceQuestion q n cs none =
        Except.ok { question := q, number := n, choices := cs, answer_key := none }) := by
  refine ⟨?_, ?_, fun q n cs => rfl⟩
  · intro q n cs k h1 h2
    simp [mkMultipleChoiceQuestion, h1, h2]
  · intro q n cs k h
    have hcond : (decide (0 ≤ k) && decide (k < 4)) = false := by
      rcases Bool.eq_false_or_eq_true (decide (0 ≤ k) && decide (k < 4)) with htr | hf
      · exfalso
        simp only [Bool.and_eq_true, decide_eq_true_eq] at htr
        exact h htr
      · exact hf
    simp [mkMultipleChoiceQuestion, hcond]

/-- Length of a flatMap over `range` when every block has the same
length. -/
theorem length_flatMap_const {α : Type} {f : Nat → List α} {L : Nat}
    (hf : ∀ i, (f i).length = L) (n : Nat) :
    ((List.range n).flatMap f).length = n * L := by
  induction n with
  | zero => simp
  | succ m ih =>
      rw [List.range_succ, List.flatMap_append]
      simp [ih, hf, Nat.succ_mul]

/-- Indexing a flatMap over `range` with constant block length. -/
theorem getElem?_flatMap_const {α : Type} {f : Nat → List α} {L : Nat}
    (hf : ∀ i, (f i).length = L) :
    ∀ n r k, r < n → k < L → ((List.range n).flatMap f)[r * L + k]? = (f r)[k]? := by
  intro n
  induction n with
  | zero => intro r k hr _; omega
  | succ m ih =>
      intro r k hr hk
      rw [List.range_succ, List.flatMap_append]
      rcases Nat.lt_or_ge r m with hrm | hrm
      · rw [List.getElem?_append_left]
        · exact ih r k hrm hk
        · rw [length_flatMap_const hf]
          calc r * L + k < r * L + L := by omega
            _ = (r + 1) * L := by ring
            _ ≤ m * L := Nat.mul_le_mul_right L hrm
      · have hr_eq : r = m := by omega
        subst hr_eq
        rw [List.getElem?_append_right]
        · rw [length_flatMap_const hf]
          have : r * L + k - r * L = k := by omega
          simp [this, hf]
        · rw [length_flatMap_const hf]
          omega

/-- The block of row `r` in the generic grid layout: reversed column
range, paired with the row index. -/
theorem getElem?_revRangeRow (cols r k : Nat) (hk : k < cols) :
    ((fun r => ((List.range cols).reverse).map (fun c => (r, c))) r)[k]? =
      some (r, cols - 1 - k) := by
  have hlen : k < ((List.range cols).reverse).length := by simpa using hk
  rw [List.getElem?_map, List.getElem?_reverse (by simpa using hk)]
  rw [List.length_range, List.getElem?_range (by omega)]
  rfl

/-- The caught `set_run_rtl` call never changes the run's text. -/
theorem trySetRunRtl_text (r : Run) : (trySetRunRtl r).text = r.text := by
  obtain ⟨t, o, h, c, af⟩ := r
  cases af <;> rfl

/-- The caught `set_run_rtl` call never changes the OMML flag. -/
theorem trySetRunRtl_hasOmml (r : Run) : (trySetRunRtl r).hasOmml = r.hasOmml := by
  obtain ⟨t, o, h, c, af⟩ := r
  cases af <;> rfl

/-- The caught `set_run_rtl` call always leaves an `rPr` container. -/
theorem trySetRunRtl_hasRPr (r : Run) : (trySetRunRtl r).hasRPr = true := by
  obtain ⟨t, o, h, c, af⟩ := r
  cases af <;> rfl

/-- Effect of the caught `set_run_rtl` call on the number of `w:rtl`
elements: one fresh element if the append succeeds, none otherwise. -/
theorem trySetRunRtl_rtlCount (r : Run) :
    (trySetRunRtl r).rtlCount =
      (if r.appendFails then r.rtlCount else r.rtlCount + 1) := by
  obtain ⟨t, o, hp, c, af⟩ := r
  cases af <;> rfl

/-- `format_paragraph_rtl` leaves the runs untouched. -/
theorem format_paragraph_rtl_runs (p : Paragraph) (pa : Bool) :
    (format_paragraph_rtl p pa).runs = p.runs := by
  unfold format_paragraph_rtl
  split <;> rfl

/-- `format_paragraph_rtl` appends exactly one `w:bidi` element. -/
theorem format_paragraph_rtl_bidiCount (p : Paragraph) (pa : Bool) :
    (format_paragraph_rtl p pa).bidiCount = p.bidiCount + 1 := by
  unfold format_paragraph_rtl
  split <;> rfl

/-- With an explicit `text` argument the applier dispatches on the
direction of that text. -/
theorem apply_some (p : Paragraph) (t : List Char) (pa : Bool) :
    apply_smart_rtl_to_paragraph p (some t) pa =
      applyDirection (detect_text_direction t) p pa := rfl

/-- Runs after the `rtl` branch. -/
theorem applyDirection_rtl_runs (p : Paragraph) (pa : Bool) :
    (applyDirection Direction.rtl p pa).runs = p.runs.map rtlRunStep := by
  show (format_paragraph_rtl p pa).runs.map rtlRunStep = _
  rw [format_paragraph_rtl_runs]

/-- Runs after the `mixed` branch. -/
theorem applyDirection_mixed_runs (p : Paragraph) (pa : Bool) :
    (applyDirection Direction.mixed p pa).runs = p.runs.map mixedRunStep := by
  show (format_paragraph_rtl p pa).runs.map mixedRunStep = _
  rw [format_paragraph_rtl_runs]

/-- Runs after the `ltr` branch. -/
theorem applyDirection_ltr_runs (p : Paragraph) (pa : Bool) :
    (applyDirection Direction.ltr p pa).runs = p.runs.map ltrRunStep := by
  cases pa <;> rfl

/-- Runs after the `neutral` branch. -/
theorem applyDirection_neutral_runs (p : Paragraph) (pa : Bool) :
    (applyDirection Direction.neutral p pa).runs = p.runs := rfl

/-- The text produced by the `rtl` per-run step is a pure function of
the incoming text and the OMML flag. -/
theorem rtlRunStep_text (r : Run) :
    (rtlRunStep r).text = wrapLatinOrMath (rtlSubstText r.text) r.hasOmml := by
  simp only [rtlRunStep]
  split
  · rw [trySetRunRtl_text]
  · rfl

/-- The text produced by the `mixed` per-run step is a pure function of
the incoming text and the OMML flag. -/
theorem mixedRunStep_text (r : Run) :
    (mixedRunStep r).text = wrapLatinOrMath (mixedSubstText r.text) r.hasOmml := rfl

/-- The text produced by the `ltr` per-run step. -/
theorem ltrRunStep_text (r : Run) :
    (ltrRunStep r).text =
      (if contains_arabic r.text && !contains_strong_latin r.text then
        RLI :: r.text ++ [PDI] else r.text) := by
  unfold ltrRunStep
  split
  · rw [trySetRunRtl_text]
  · rfl

/-- Punctuation substitution preserves the strong-Latin character
class pointwise. -/
theorem strongLatin_subst (c : Char) :
    isStrongLatinChar (arabicPunctSubst c) = isStrongLatinChar c := by
  unfold arabicPunctSubst
  split_ifs with h1 h2 h3
  · subst h1; decide
  · subst h2; decide
  · subst h3; decide
  · rfl

/-- Punctuation substitution preserves `contains_strong_latin`. -/
theorem contains_strong_latin_map_subst (t : List Char) :
    contains_strong_latin (t.map arabicPunctSubst) = contains_strong_latin t := by
  induction t with
  | nil => rfl
  | cons c cs ih =>
      simp only [contains_strong_latin, List.map_cons, List.any_cons] at *
      rw [strongLatin_subst, ih]

/-- The `rtl` branch substitution preserves `contains_strong_latin`. -/
theorem rtlSubstText_strong (t : List Char) :
    contains_strong_latin (rtlSubstText t) = contains_strong_latin t := by
  unfold rtlSubstText
  split
  · exact contains_strong_latin_map_subst t
  · rfl

/-- The `mixed` branch substitution preserves `contains_strong_latin`. -/
theorem mixedSubstText_strong (t : List Char) :
    contains_strong_latin (mixedSubstText t) = contains_strong_latin t := by
  unfold mixedSubstText
  split
  · exact contains_strong_latin_map_subst t
  · rfl

/-- The substitution never produces an ASCII comma, question mark or
semicolon. -/
theorem arabicPunctSubst_no_ascii_punct (c : Char) :
    (!(arabicPunctSubst c == ',' || arabicPunctSubst c == '?' ||
       arabicPunctSubst c == ';')) = true := by
  unfold arabicPunctSubst
  split_ifs with h1 h2 h3
  · decide
  · decide
  · decide
  · simp only [Bool.not_eq_eq_eq_not, Bool.not_true, Bool.or_eq_false_iff,
      beq_eq_false_iff_ne, ne_eq]
    exact ⟨⟨h1, h2⟩, h3⟩

/-- Substituted text contains no ASCII comma, question mark or
semicolon. -/
theorem noAsciiPunct_map_subst (t : List Char) :
    noAsciiPunct (t.map arabicPunctSubst) = true := by
  induction t with
  | nil => rfl
  | cons c cs ih =>
      simp only [noAsciiPunct, List.map_cons, List.all_cons] at *
      rw [ih, arabicPunctSubst_no_ascii_punct]
      rfl

/-- Isolate wrapping preserves absence of ASCII punctuation. -/
theorem noAsciiPunct_wrap (t : List Char) (o : Bool)
    (h : noAsciiPunct t = true) : noAsciiPunct (wrapLatinOrMath t o) = true := by
  unfold wrapLatinOrMath
  split
  · have ht := h
    simp only [noAsciiPunct, List.all_eq_true] at ht ⊢
    intro c hc
    rcases List.mem_append.mp hc with h1 | h2
    · rcases List.mem_cons.mp h1 with hL | h12
      · subst hL; decide
      · rcases List.mem_append.mp h12 with hm | hP
        · exact ht c hm
        · have hcP : c = PDI := by simpa using hP
          subst hcP; decide
    · cases o
      · simp at h2
      · have hcR : c = RLM := by simpa using h2
        subst hcR; decide
  · exact h

/-- C1 fails on the code: under an `rtl` paragraph verdict the
substitution is guarded only by `contains_arabic(run.text)`, with no
strong-Latin exclusion. A run of seven ALEF characters, a comma and the
Latin letter `A` (paragraph ratio 7/8 > 0.6, so verdict `rtl`) contains
strong Latin content, yet its comma is replaced by the Arabic comma. -/
theorem C1_counterexample :
    detect_text_direction
      (List.replicate 7 (Char.ofNat 0x627) ++ [',', 'A']) = Direction.rtl ∧
    contains_arabic (List.replicate 7 (Char.ofNat 0x627) ++ [',', 'A']) = true ∧
    contains_strong_latin (List.replicate 7 (Char.ofNat 0x627) ++ [',', 'A']) = true ∧
    (apply_smart_rtl_to_paragraph
        { runs := [{ text := List.replicate 7 (Char.ofNat 0x627) ++ [',', 'A'],
                     hasOmml := false, hasRPr := false, rtlCount := 0,
                     appendFails := false }],
          bidiCount := 0, bidiVisualCount := 0, spaceBefore := none,
          spaceAfter := none, alignment := none }
        none false).runs.map Run.text =
      [LRI :: (List.replicate 7 (Char.ofNat 0x627) ++ [arabicComma, 'A']) ++ [PDI]] := by
  decide

/-- C1 amended: under an `rtl` paragraph verdict, every run containing
Arabic-class characters has all its ASCII `,` `?` `;` substituted, even
when the run also contains strong Latin content; the claimed exclusion
of strongly-Latin runs holds only under a `mixed` verdict, where a run
with Arabic and strong Latin content (and no math) keeps its text
verbatim inside the LRI/PDI wrapper. -/
theorem C1_amended_punctuation_substitution (p : Paragraph) (t : List Char)
    (pa : Bool) (i : Nat) (r : Run) (hi : p.runs[i]? = some r) :
    (detect_text_direction t = Direction.rtl → contains_arabic r.text = true →
      ((apply_smart_rtl_to_paragraph p (some t) pa).runs[i]?.map Run.text).all
        noAsciiPunct = true) ∧
    (detect_text_direction t = Direction.mixed → contains_arabic r.text = true →
      contains_strong_latin r.text = true → r.hasOmml = false →
      (apply_smart_rtl_to_paragraph p (some t) pa).runs[i]?.map Run.text =
        some (LRI :: r.text ++ [PDI])) := by
  constructor
  · intro hd hA
    rw [apply_some, hd, applyDirection_rtl_runs, List.getElem?_map, hi]
    show (Option.some (rtlRunStep r).text).all noAsciiPunct = true
    simp only [Option.all_some]
    rw [rtlRunStep_text]
    apply noAsciiPunct_wrap
    unfold rtlSubstText
    rw [if_pos hA]
    exact noAsciiPunct_map_subst r.text
  · intro hd hA hL hO
    rw [apply_some, hd, applyDirection_mixed_runs, List.getElem?_map, hi]
    show Option.some ((mixedRunStep r).text) = _
    rw [mixedRunStep_text]
    have hsub : mixedSubstText r.text = r.text := by
      unfold mixedSubstText
      rw [if_neg]
      simp [hL]
    rw [hsub]
    unfold wrapLatinOrMath
    rw [if_pos (by simp [hL]), hO]
    simp

/-- Closed instance of C1's amended statement: an rtl-verdict paragraph
whose single run holds Arabic text and a comma loses the ASCII comma. -/
theorem C1_witness :
    ((apply_smart_rtl_to_paragraph
        { runs := [{ text := [Char.ofNat 0x627, ','], hasOmml := false,
                     hasRPr := false, rtlCount := 0, appendFails := false }],
          bidiCount := 0, bidiVisualCount := 0, spaceBefore := none,
          spaceAfter := none, alignment := none }
        (some [Char.ofNat 0x627, ',']) false).runs[0]?.map Run.text).all
      noAsciiPunct = true :=
  (C1_amended_punctuation_substitution
    { runs := [{ text := [Char.ofNat 0x627, ','], hasOmml := false,
                 hasRPr := false, rtlCount := 0, appendFails := false }],
      bidiCount := 0, bidiVisualCount := 0, spaceBefore := none,
      spaceAfter := none, alignment := none }
    [Char.ofNat 0x627, ','] false 0
    { text := [Char.ofNat 0x627, ','], hasOmml := false, hasRPr := false,
      rtlCount := 0, appendFails := false }
    (by decide)).1 (by decide) (by decide)

/-- C5: under an `rtl` or `mixed` verdict, a run with strong Latin
content or an embedded OMML math object has its (possibly substituted)
text wrapped as `LRI + text + PDI`, and an OMML run additionally gets a
Right-to-Left Mark immediately after the closing PDI. -/
theorem C5_isolate_wrapping (p : Paragraph) (t : List Char) (pa : Bool)
    (i : Nat) (r : Run) (hi : p.runs[i]? = some r)
    (hw : (contains_strong_latin r.text || r.hasOmml) = true) :
    (detect_text_direction t = Direction.rtl →
      (apply_smart_rtl_to_paragraph p (some t) pa).runs[i]?.map Run.text =
        some ((LRI :: rtlSubstText r.text ++ [PDI]) ++
              (if r.hasOmml then [RLM] else []))) ∧
    (detect_text_direction t = Direction.mixed →
      (apply_smart_rtl_to_paragraph p (some t) pa).runs[i]?.map Run.text =
        some ((LRI :: mixedSubstText r.text ++ [PDI]) ++
              (if r.hasOmml then [RLM] else []))) := by
  constructor
  · intro hd
    rw [apply_some, hd, applyDirection_rtl_runs, List.getElem?_map, hi]
    show Option.some ((rtlRunStep r).text) = _
    rw [rtlRunStep_text]
    unfold wrapLatinOrMath
    rw [if_pos (by rw [rtlSubstText_strong]; exact hw)]
  · intro hd
    rw [apply_some, hd, applyDirection_mixed_runs, List.getElem?_map, hi]
    show Option.some ((mixedRunStep r).text) = _
    rw [mixedRunStep_text]
    unfold wrapLatinOrMath
    rw [if_pos (by rw [mixedSubstText_strong]; exact hw)]

/-- Closed instance of C5: a mixed-verdict paragraph whose OMML run is
wrapped in LRI/PDI with a trailing RLM. -/
theorem C5_witness :
    (apply_smart_rtl_to_paragraph
        { runs := [{ text := ['x'], hasOmml := true, hasRPr := false,
                     rtlCount := 0, appendFails := false }],
          bidiCount := 0, bidiVisualCount := 0, spaceBefore := none,
          spaceAfter := none, alignment := none }
        (some [Char.ofNat 0x627, 'x']) false).runs[0]?.map Run.text =
      some ((LRI :: mixedSubstText ['x'] ++ [PDI]) ++ [RLM]) := by
  have h := (C5_isolate_wrapping
    { runs := [{ text := ['x'], hasOmml := true, hasRPr := false,
                 rtlCount := 0, appendFails := false }],
      bidiCount := 0, bidiVisualCount := 0, spaceBefore := none,
      spaceAfter := none, alignment := none }
    [Char.ofNat 0x627, 'x'] false 0
    { text := ['x'], hasOmml := true, hasRPr := false, rtlCount := 0,
      appendFails := false }
    (by decide) (by decide)).2 (by decide)
  simpa using h

/-- C6: under an `ltr` verdict the applier zeroes the paragraph spacing,
forces LEFT alignment exactly when `preserve_alignment` is false,
performs no punctuation substitution, wraps precisely the runs holding
Arabic-class characters and no strong Latin content as `RLI + text +
PDI` with the run-level RTL property, and leaves every other run
untouched. -/
theorem C6_ltr_branch (p : Paragraph) (t : List Char) (pa : Bool)
    (hd : detect_text_direction t = Direction.ltr) :
    (apply_smart_rtl_to_paragraph p (some t) pa).spaceBefore = some 0 ∧
    (apply_smart_rtl_to_paragraph p (some t) pa).spaceAfter = some 0 ∧
    (apply_smart_rtl_to_paragraph p (some t) pa).alignment =
      (if pa then p.alignment else some WDAlign.left) ∧
    (∀ (i : Nat) (r : Run), p.runs[i]? = some r →
      ((contains_arabic r.text && !contains_strong_latin r.text) = true →
        (apply_smart_rtl_to_paragraph p (some t) pa).runs[i]?.map Run.text =
          some (RLI :: r.text ++ [PDI]) ∧
        (r.appendFails = false →
          (apply_smart_rtl_to_paragraph p (some t) pa).runs[i]?.map Run.rtlCount =
            some (r.rtlCount + 1))) ∧
      ((contains_arabic r.text && !contains_strong_latin r.text) = false →
        (apply_smart_rtl_to_paragraph p (some t) pa).runs[i]? = some r)) := by
  rw [apply_some, hd]
  refine ⟨by cases pa <;> rfl, by cases pa <;> rfl, by cases pa <;> rfl, ?_⟩
  intro i r hi
  rw [applyDirection_ltr_runs, List.getElem?_map, hi]
  constructor
  · intro hc
    constructor
    · show Option.some ((ltrRunStep r).text) = _
      rw [ltrRunStep_text, if_pos hc]
    · intro hfail
      show Option.some ((ltrRunStep r).rtlCount) = _
      unfold ltrRunStep
      rw [if_pos hc, trySetRunRtl_rtlCount]
      simp [hfail]
  · intro hc
    show Option.some (ltrRunStep r) = _
    unfold ltrRunStep
    rw [if_neg (by simp [hc])]

/-- Closed instance of C6: an ltr-verdict paragraph whose Arabic run is
wrapped with RLI/PDI and gets the run-level RTL property, while the
Latin run is untouched. -/
theorem C6_witness :
    (apply_smart_rtl_to_paragraph
        { runs := [{ text := ['a', 'b', 'c', 'd', 'e'], hasOmml := false,
                     hasRPr := false, rtlCount := 0, appendFails := false },
                   { text := [Char.ofNat 0x627], hasOmml := false,
                     hasRPr := false, rtlCount := 0, appendFails := false }],
          bidiCount := 0, bidiVisualCount := 0, spaceBefore := none,
          spaceAfter := none, alignment := none }
        (some ('a' :: 'b' :: 'c' :: 'd' :: 'e' :: [Char.ofNat 0x627])) false).runs[1]?.map
      Run.text = some (RLI :: [Char.ofNat 0x627] ++ [PDI]) :=
  (((C6_ltr_branch
    { runs := [{ text := ['a', 'b', 'c', 'd', 'e'], hasOmml := false,
                 hasRPr := false, rtlCount := 0, appendFails := false },
               { text := [Char.ofNat 0x627], hasOmml := false,
                 hasRPr := false, rtlCount := 0, appendFails := false }],
      bidiCount := 0, bidiVisualCount := 0, spaceBefore := none,
      spaceAfter := none, alignment := none }
    ('a' :: 'b' :: 'c' :: 'd' :: 'e' :: [Char.ofNat 0x627]) false
    (by decide)).2.2.2 1
    { text := [Char.ofNat 0x627], hasOmml := false, hasRPr := false,
      rtlCount := 0, appendFails := false }
    (by decide)).1 (by decide)).1

/-- The applier preserves the number of runs, whatever the verdict. -/
theorem applyDirection_runs_length (d : Direction) (p : Paragraph) (pa : Bool) :
    (applyDirection d p pa).runs.length = p.runs.length := by
  cases d
  · rw [applyDirection_rtl_runs, List.length_map]
  · rw [applyDirection_ltr_runs, List.length_map]
  · rw [applyDirection_mixed_runs, List.length_map]
  · rw [applyDirection_neutral_runs]

/-- Each branch rewrites every run's text by the pure transformation of
that branch, independently of the property state and failure flags. -/
theorem applyDirection_run_text (d : Direction) (p : Paragraph) (pa : Bool)
    (i : Nat) (r : Run) (hi : p.runs[i]? = some r) :
    (applyDirection d p pa).runs[i]?.map Run.text =
      some (runTextTransform d r.text r.hasOmml) := by
  cases d
  · rw [applyDirection_rtl_runs, List.getElem?_map, hi]
    show Option.some ((rtlRunStep r).text) = _
    rw [rtlRunStep_text]
    rfl
  · rw [applyDirection_ltr_runs, List.getElem?_map, hi]
    show Option.some ((ltrRunStep r).text) = _
    rw [ltrRunStep_text]
    rfl
  · rw [applyDirection_mixed_runs, List.getElem?_map, hi]
    show Option.some ((mixedRunStep r).text) = _
    rw [mixedRunStep_text]
    rfl
  · rw [applyDirection_neutral_runs, hi]
    rfl

/-- C7: no exception escapes a failed run-level direction-property
assignment: `set_run_rtl` always leaves an `rPr` container behind, a
caught failure never loses the run's text, and for every paragraph the
applier processes all runs — the run count is preserved and every run's
text receives the branch transformation, whatever the failure flags. -/
theorem C7_property_failures_do_not_abort (p : Paragraph)
    (text : Option (List Char)) (pa : Bool) :
    (∀ (r : Run) (v : Bool), ((set_run_rtl r v).1).hasRPr = true) ∧
    (∀ r : Run, (trySetRunRtl r).text = r.text) ∧
    (apply_smart_rtl_to_paragraph p text pa).runs.length = p.runs.length ∧
    (∀ (i : Nat) (r : Run), p.runs[i]? = some r →
      (apply_smart_rtl_to_paragraph p text pa).runs[i]?.map Run.text =
        some (runTextTransform
          (detect_text_direction (text.getD ((p.runs.map Run.text).flatten)))
          r.text r.hasOmml)) := by
  refine ⟨?_, trySetRunRtl_text, ?_, ?_⟩
  · intro r v
    obtain ⟨t, o, h, c, af⟩ := r
    cases af <;> rfl
  · exact applyDirection_runs_length _ p pa
  · intro i r hi
    exact applyDirection_run_text _ p pa i r hi

/-- Closed instance of C7: a run whose `rPr` append raises is still
processed — the rtl-verdict paragraph keeps its single run and the text
transformation is applied. -/
theorem C7_witness :
    (apply_smart_rtl_to_paragraph
        { runs := [{ text := [Char.ofNat 0x627], hasOmml := false,
                     hasRPr := false, rtlCount := 0, appendFails := true }],
          bidiCount := 0, bidiVisualCount := 0, spaceBefore := none,
          spaceAfter := none, alignment := none }
        none false).runs.length = 1 ∧
    (apply_smart_rtl_to_paragraph
        { runs := [{ text := [Char.ofNat 0x627], hasOmml := false,
                     hasRPr := false, rtlCount := 0, appendFails := true }],
          bidiCount := 0, bidiVisualCount := 0, spaceBefore := none,
          spaceAfter := none, alignment := none }
        none false).runs[0]?.map Run.text = some [Char.ofNat 0x627] :=
  ⟨(C7_property_failures_do_not_abort
      { runs := [{ text := [Char.ofNat 0x627], hasOmml := false,
                   hasRPr := false, rtlCount := 0, appendFails := true }],
        bidiCount := 0, bidiVisualCount := 0, spaceBefore := none,
        spaceAfter := none, alignment := none } none false).2.2.1,
   ((C7_property_failures_do_not_abort
      { runs := [{ text := [Char.ofNat 0x627], hasOmml := false,
                   hasRPr := false, rtlCount := 0, appendFails := true }],
        bidiCount := 0, bidiVisualCount := 0, spaceBefore := none,
        spaceAfter := none, alignment := none } none false).2.2.2 0
      { text := [Char.ofNat 0x627], hasOmml := false, hasRPr := false,
        rtlCount := 0, appendFails := true }
      (by decide)).trans (by decide)⟩

/-- Under an rtl verdict one application appends exactly one `w:bidi`. -/
theorem apply_rtl_bidiCount (p : Paragraph) (t : List Char) (pa : Bool)
    (hd : detect_text_direction t = Direction.rtl) :
    (apply_smart_rtl_to_paragraph p (some t) pa).bidiCount = p.bidiCount + 1 := by
  rw [apply_some, hd]
  show (format_paragraph_rtl p pa).bidiCount = _
  exact format_paragraph_rtl_bidiCount p pa

/-- C9: `format_paragraph_rtl` appends a fresh `w:bidi` each call and
`set_run_rtl` appends a fresh `w:rtl` each successful call, with no
duplicate check, so n applications of the applier to a paragraph whose
(explicitly passed) text has an rtl verdict accumulate n `w:bidi`
children. -/
theorem C9_fresh_bidi_accumulation (t : List Char) (pa : Bool)
    (hd : detect_text_direction t = Direction.rtl) :
    (∀ (p : Paragraph) (n : Nat),
      (applyIter (some t) pa n p).bidiCount = p.bidiCount + n) ∧
    (∀ (p : Paragraph) (pa2 : Bool),
      (format_paragraph_rtl p pa2).bidiCount = p.bidiCount + 1) ∧
    (∀ r : Run, r.appendFails = false →
      ((set_run_rtl r true).1).rtlCount = r.rtlCount + 1) := by
  refine ⟨?_, format_paragraph_rtl_bidiCount, ?_⟩
  · intro p n
    induction n generalizing p with
    | zero => rfl
    | succ m ih =>
        show (applyIter (some t) pa m
          (apply_smart_rtl_to_paragraph p (some t) pa)).bidiCount = _
        rw [ih, apply_rtl_bidiCount p t pa hd]
        omega
  · intro r h
    obtain ⟨tx, o, hp, c, af⟩ := r
    cases af
    · rfl
    · exact absurd h (by simp)

/-- Closed instance of C9: two applications on a fresh rtl paragraph
leave two `w:bidi` children. -/
theorem C9_witness :
    (applyIter (some [Char.ofNat 0x627]) false 2
      { runs := [{ text := [Char.ofNat 0x627], hasOmml := false,
                   hasRPr := false, rtlCount := 0, appendFails := false }],
        bidiCount := 0, bidiVisualCount := 0, spaceBefore := none,
        spaceAfter := none, alignment := none }).bidiCount = 2 :=
  (C9_fresh_bidi_accumulation [Char.ofNat 0x627] false (by decide)).1
    { runs := [{ text := [Char.ofNat 0x627], hasOmml := false,
                 hasRPr := false, rtlCount := 0, appendFails := false }],
      bidiCount := 0, bidiVisualCount := 0, spaceBefore := none,
      spaceAfter := none, alignment := none } 2

theorem countChar_nil (m : Char) : countChar m [] = 0 := rfl

theorem countChar_cons (m c : Char) (t : List Char) :
    countChar m (c :: t) = (if c == m then 1 else 0) + countChar m t := by
  unfold countChar
  rw [List.filter_cons]
  split
  · simp [Nat.add_comm]
  · simp

theorem countChar_append (m : Char) (t1 t2 : List Char) :
    countChar m (t1 ++ t2) = countChar m t1 + countChar m t2 := by
  unfold countChar
  rw [List.filter_append, List.length_append]

/-- Punctuation substitution does not change the number of occurrences
of a character that is neither a key nor a value of the map. -/
theorem countChar_map_subst (m : Char)
    (h1 : (arabicComma == m) = false) (h2 : (arabicQuestionMark == m) = false)
    (h3 : (arabicSemicolon == m) = false)
    (h4 : ((',' : Char) == m) = false) (h5 : (('?' : Char) == m) = false)
    (h6 : ((';' : Char) == m) = false) :
    ∀ t : List Char, countChar m (t.map arabicPunctSubst) = countChar m t := by
  intro t
  induction t with
  | nil => rfl
  | cons c cs ih =>
      rw [List.map_cons, countChar_cons, countChar_cons, ih]
      unfold arabicPunctSubst
      split_ifs <;> simp_all

/-- The marker balance as a numeric statement. -/
theorem markerBalancedB_eq (t : List Char) :
    markerBalancedB t = true ↔
      countChar LRI t + countChar RLI t = countChar PDI t := by
  unfold markerBalancedB
  exact beq_iff_eq

/-- The `rtl` substitution leaves the three marker counts unchanged. -/
theorem rtlSubstText_markers (t : List Char) :
    countChar LRI (rtlSubstText t) = countChar LRI t ∧
    countChar RLI (rtlSubstText t) = countChar RLI t ∧
    countChar PDI (rtlSubstText t) = countChar PDI t := by
  unfold rtlSubstText
  split
  · exact ⟨countChar_map_subst LRI (by decide) (by decide) (by decide) (by decide)
      (by decide) (by decide) t,
     countChar_map_subst RLI (by decide) (by decide) (by decide) (by decide)
      (by decide) (by decide) t,
     countChar_map_subst PDI (by decide) (by decide) (by decide) (by decide)
      (by decide) (by decide) t⟩
  · exact ⟨rfl, rfl, rfl⟩

/-- The `mixed` substitution leaves the three marker counts unchanged. -/
theorem mixedSubstText_markers (t : List Char) :
    countChar LRI (mixedSubstText t) = countChar LRI t ∧
    countChar RLI (mixedSubstText t) = countChar RLI t ∧
    countChar PDI (mixedSubstText t) = countChar PDI t := by
  unfold mixedSubstText
  split
  · exact ⟨countChar_map_subst LRI (by decide) (by decide) (by decide) (by decide)
      (by decide) (by decide) t,
     countChar_map_subst RLI (by decide) (by decide) (by decide) (by decide)
      (by decide) (by decide) t,
     countChar_map_subst PDI (by decide) (by decide) (by decide) (by decide)
      (by decide) (by decide) t⟩
  · exact ⟨rfl, rfl, rfl⟩

/-- Occurrence count through the shape `(a :: t ++ [b]) ++ tail`. -/
theorem countChar_expand (m a b : Char) (t tail : List Char) :
    countChar m ((a :: t ++ [b]) ++ tail) =
      (if a == m then 1 else 0) + countChar m t + (if b == m then 1 else 0) +
      countChar m tail := by
  rw [countChar_append, countChar_append, countChar_cons, countChar_cons,
    countChar_nil]
  omega

/-- Neither branch of the optional RLM tail holds any of the three
isolate markers. -/
theorem countChar_markers_rlmTail (o : Bool) :
    countChar LRI (if o then [RLM] else []) = 0 ∧
    countChar RLI (if o then [RLM] else []) = 0 ∧
    countChar PDI (if o then [RLM] else []) = 0 := by
  cases o
  · exact ⟨rfl, rfl, rfl⟩
  · exact ⟨by decide, by decide, by decide⟩

/-- Isolate wrapping preserves marker balance: it adds one opening
isolate and one pop marker (and possibly an RLM, which is none of the
three). -/
theorem markerBalancedB_wrap (t : List Char) (o : Bool)
    (h : markerBalancedB t = true) :
    markerBalancedB (wrapLatinOrMath t o) = true := by
  rw [markerBalancedB_eq] at h ⊢
  unfold wrapLatinOrMath
  split
  · rw [countChar_expand LRI LRI PDI t _, countChar_expand RLI LRI PDI t _,
      countChar_expand PDI LRI PDI t _]
    obtain ⟨z1, z2, z3⟩ := countChar_markers_rlmTail o
    rw [z1, z2, z3,
      show (if (LRI == LRI) = true then (1 : Nat) else 0) = 1 from by decide,
      show (if (PDI == LRI) = true then (1 : Nat) else 0) = 0 from by decide,
      show (if (LRI == RLI) = true then (1 : Nat) else 0) = 0 from by decide,
      show (if (PDI == RLI) = true then (1 : Nat) else 0) = 0 from by decide,
      show (if (LRI == PDI) = true then (1 : Nat) else 0) = 0 from by decide,
      show (if (PDI == PDI) = true then (1 : Nat) else 0) = 1 from by decide]
    omega
  · exact h

/-- One `rtl`-branch run step preserves marker balance. -/
theorem balanced_rtlRunStep (r : Run) (h : markerBalancedB r.text = true) :
    markerBalancedB (rtlRunStep r).text = true := by
  rw [rtlRunStep_text]
  apply markerBalancedB_wrap
  rw [markerBalancedB_eq] at h ⊢
  obtain ⟨e1, e2, e3⟩ := rtlSubstText_markers r.text
  rw [e1, e2, e3]
  exact h

/-- One `mixed`-branch run step preserves marker balance. -/
theorem balanced_mixedRunStep (r : Run) (h : markerBalancedB r.text = true) :
    markerBalancedB (mixedRunStep r).text = true := by
  rw [mixedRunStep_text]
  apply markerBalancedB_wrap
  rw [markerBalancedB_eq] at h ⊢
  obtain ⟨e1, e2, e3⟩ := mixedSubstText_markers r.text
  rw [e1, e2, e3]
  exact h

/-- One `ltr`-branch run step preserves marker balance. -/
theorem balanced_ltrRunStep (r : Run) (h : markerBalancedB r.text = true) :
    markerBalancedB (ltrRunStep r).text = true := by
  rw [ltrRunStep_text]
  split
  · rw [markerBalancedB_eq] at h ⊢
    rw [show RLI :: r.text ++ [PDI] = (RLI :: r.text ++ [PDI]) ++ ([] : List Char)
        from by simp]
    rw [countChar_expand LRI RLI PDI r.text [], countChar_expand RLI RLI PDI r.text [],
      countChar_expand PDI RLI PDI r.text [],
      show (if (RLI == LRI) = true then (1 : Nat) else 0) = 0 from by decide,
      show (if (PDI == LRI) = true then (1 : Nat) else 0) = 0 from by decide,
      show (if (RLI == RLI) = true then (1 : Nat) else 0) = 1 from by decide,
      show (if (PDI == RLI) = true then (1 : Nat) else 0) = 0 from by decide,
      show (if (RLI == PDI) = true then (1 : Nat) else 0) = 0 from by decide,
      show (if (PDI == PDI) = true then (1 : Nat) else 0) = 1 from by decide]
    simp only [countChar_nil]
    omega
  · exact h

/-- Every branch of the applier maps balanced run texts to balanced run
texts. -/
theorem balanced_applyDirection (d : Direction) (p : Paragraph) (pa : Bool)
    (h : p.runs.all (fun r => markerBalancedB r.text) = true) :
    (applyDirection d p pa).runs.all (fun r => markerBalancedB r.text) = true := by
  rw [List.all_eq_true] at h
  cases d
  · rw [applyDirection_rtl_runs, List.all_eq_true]
    intro r hr
    obtain ⟨r0, hr0, rfl⟩ := List.mem_map.mp hr
    exact balanced_rtlRunStep r0 (h r0 hr0)
  · rw [applyDirection_ltr_runs, List.all_eq_true]
    intro r hr
    obtain ⟨r0, hr0, rfl⟩ := List.mem_map.mp hr
    exact balanced_ltrRunStep r0 (h r0 hr0)
  · rw [applyDirection_mixed_runs, List.all_eq_true]
    intro r hr
    obtain ⟨r0, hr0, rfl⟩ := List.mem_map.mp hr
    exact balanced_mixedRunStep r0 (h r0 hr0)
  · rw [applyDirection_neutral_runs, List.all_eq_true]
    exact h

/-- C4 fails on the code: re-applying the applier to an already
processed paragraph wraps the strong-Latin run in a second layer of
isolates — after two applications the run text is LRI LRI 'A' PDI PDI,
holding two opening isolates. -/
theorem C4_counterexample :
    (apply_smart_rtl_to_paragraph
        (apply_smart_rtl_to_paragraph
          { runs := [{ text := [Char.ofNat 0x627, Char.ofNat 0x627, Char.ofNat 0x627],
                       hasOmml := false, hasRPr := false, rtlCount := 0,
                       appendFails := false },
                     { text := ['A'], hasOmml := false, hasRPr := false,
                       rtlCount := 0, appendFails := false }],
            bidiCount := 0, bidiVisualCount := 0, spaceBefore := none,
            spaceAfter := none, alignment := none }
          none false)
        none false).runs.map Run.text =
      [[Char.ofNat 0x627, Char.ofNat 0x627, Char.ofNat 0x627],
       [LRI, LRI, 'A', PDI, PDI]] ∧
    countChar LRI [LRI, LRI, 'A', PDI, PDI] = 2 := by
  decide

/-- C4 amended: a second application of the applier may wrap an already
wrapped run in an additional layer of isolates (the applier is not
idempotent on run text), but the marker balance is preserved: if every
run's text satisfies count(LRI) + count(RLI) = count(PDI) before, the
same holds after any two applications. -/
theorem C4_amended_marker_balance (p : Paragraph) (t1 t2 : Option (List Char))
    (pa1 pa2 : Bool)
    (h : p.runs.all (fun r => markerBalancedB r.text) = true) :
    (apply_smart_rtl_to_paragraph (apply_smart_rtl_to_paragraph p t1 pa1)
        t2 pa2).runs.all (fun r => markerBalancedB r.text) = true :=
  balanced_applyDirection _ _ pa2 (balanced_applyDirection _ _ pa1 h)

/-- Closed instance of C4's amended statement on the double-wrapping
example paragraph. -/
theorem C4_witness :
    (apply_smart_rtl_to_paragraph
        (apply_smart_rtl_to_paragraph
          { runs := [{ text := [Char.ofNat 0x627, Char.ofNat 0x627, Char.ofNat 0x627],
                       hasOmml := false, hasRPr := false, rtlCount := 0,
                       appendFails := false },
                     { text := ['A'], hasOmml := false, hasRPr := false,
                       rtlCount := 0, appendFails := false }],
            bidiCount := 0, bidiVisualCount := 0, spaceBefore := none,
            spaceAfter := none, alignment := none }
          none false)
        none false).runs.all (fun r => markerBalancedB r.text) = true :=
  C4_amended_marker_balance
    { runs := [{ text := [Char.ofNat 0x627, Char.ofNat 0x627, Char.ofNat 0x627],
                 hasOmml := false, hasRPr := false, rtlCount := 0,
                 appendFails := false },
               { text := ['A'], hasOmml := false, hasRPr := false,
                 rtlCount := 0, appendFails := false }],
      bidiCount := 0, bidiVisualCount := 0, spaceBefore := none,
      spaceAfter := none, alignment := none }
    none none false false (by decide)

/-- C8: in the 2x2 grid, logical choice 0 is placed at (0,1), choice 1
at (0,0), choice 2 at (1,1) and choice 3 at (1,0); and for every grid,
position number `r * cols + (cols - 1 - c)` of the fill order is cell
`(r, c)` — row-major with each row's columns visited right-to-left. -/
theorem C8_choice_grid_order :
    (∀ c0 c1 c2 c3 : List Char,
      choicePlacement 2 2 [c0, c1, c2, c3] =
        [((0, 1), c0), ((0, 0), c1), ((1, 1), c2), ((1, 0), c3)]) ∧
    (∀ rows cols r c : Nat, r < rows → c < cols →
      (cell_positions rows cols)[r * cols + (cols - 1 - c)]? = some (r, c)) := by
  constructor
  · intro c0 c1 c2 c3
    rfl
  · intro rows cols r c hr hc
    by_cases h22 : rows = 2 ∧ cols = 2
    · obtain ⟨h2r, h2c⟩ := h22
      subst h2r
      subst h2c
      interval_cases r <;> interval_cases c <;> decide
    · have hcond : (rows = 2 && cols = 2) = false := by
        rcases Bool.eq_false_or_eq_true (rows = 2 && cols = 2) with htr | hf
        · exfalso
          simp only [Bool.and_eq_true, decide_eq_true_eq] at htr
          exact h22 htr
        · exact hf
      rw [cell_positions, hcond]
      simp only [Bool.false_eq_true, if_false]
      have hf : ∀ i : Nat,
          (((List.range cols).reverse).map (fun c => (i, c))).length = cols := by
        intro i
        simp
      rw [getElem?_flatMap_const hf rows r (cols - 1 - c) hr (by omega)]
      rw [getElem?_revRangeRow cols r (cols - 1 - c) (by omega)]
      have : cols - 1 - (cols - 1 - c) = c := by omega
      rw [this]

/-- Closed instance of C8's generic part on a 3x2 grid: fill position 4
is cell (2,1) and fill position 5 is cell (2,0). -/
theorem C8_witness :
    (cell_positions 3 2)[2 * 2 + (2 - 1 - 1)]? = some (2, 1) ∧
    (cell_positions 3 2)[2 * 2 + (2 - 1 - 0)]? = some (2, 0) :=
  ⟨C8_choice_grid_order.2 3 2 2 1 (by decide) (by decide),
   C8_choice_grid_order.2 3 2 2 0 (by decide) (by decide)⟩

/-- Closed instance of C10: with an empty choices list, key 2 is
accepted and key 5 is rejected. -/
theorem C10_witness :
    mkMultipleChoiceQuestion ['q'] none [] (some 2) =
      Except.ok { question := ['q'], number := none, choices := [], answer_key := some 2 } ∧
    mkMultipleChoiceQuestion ['q'] none [] (some 5) =
      Except.error ("Answer key must be between 0 and 3".toList) :=
  ⟨C10_answer_key_validation.1 ['q'] none [] 2 (by decide) (by decide),
   C10_answer_key_validation.2.1 ['q'] none [] 5 (by decide)⟩

end Worksheet
